import Mathlib

/-!
Verification development for the MockRTC step execution engine
(src/handling/handler-steps.ts and src/handling/handler-step-definitions.ts).

The TypeScript source is shallowly embedded: each step executor class becomes
a Lean structure together with pure transition functions mirroring its
handle/serialize/deserialize/dispose methods; the event-driven parts
(listeners registered on the connection and on channel/track streams) become
explicit state machines driven by event lists.
-/

namespace MockRTC

/-! ### Basic wire types -/

/-- Mirror of the DOM RTCSessionDescriptionInit value carried by offers and
answers: a plain record of an sdp type string and the sdp payload. -/
structure RTCSessionDescriptionInit where
  sdpType : String
  sdp : String
  deriving DecidableEq, Repr

/-- Error kinds named by the spec (section 7): registry resolution failure,
a rejected send-message write, and a failed proxy negotiation. -/
inductive StepError where
  | UnknownStepType (tag : String)
  | WriteFailed (message : String)
  | NegotiationFailed (message : String)
  deriving DecidableEq, Repr

/-! ### Step registry (handler-steps.ts StepLookup, part_000 StepDefinitionLookup)

The ten executor classes and the ten definition classes are embedded as
two enumerations; the readonly type field of each class becomes a function
from the enumeration to the tag string, and each lookup object becomes a
function from tag strings to an optional class. -/

/-- The ten executor classes exported by handler-steps.ts. -/
inductive StepClass where
  | WaitForDurationStep
  | WaitForChannelStep
  | WaitForTrackStep
  | WaitForMediaStep
  | WaitForMessageStep
  | SendStep
  | CloseStep
  | EchoStep
  | PeerProxyStep
  | DynamicProxyStep
  deriving DecidableEq, Repr

/-- The ten definition classes exported by handler-step-definitions.ts. -/
inductive StepDefinitionClass where
  | WaitForDurationStepDefinition
  | WaitForChannelStepDefinition
  | WaitForTrackStepDefinition
  | WaitForMediaStepDefinition
  | WaitForMessageStepDefinition
  | SendStepDefinition
  | CloseStepDefinition
  | EchoStepDefinition
  | PeerProxyStepDefinition
  | DynamicProxyStepDefinition
  deriving DecidableEq, Repr

/-- The readonly type tag declared by each executor class. -/
def StepClass.typeTag : StepClass → String
  | .WaitForDurationStep => "wait-for-duration"
  | .WaitForChannelStep => "wait-for-channel"
  | .WaitForTrackStep => "wait-for-track"
  | .WaitForMediaStep => "wait-for-media"
  | .WaitForMessageStep => "wait-for-message"
  | .SendStep => "send-message"
  | .CloseStep => "close-connection"
  | .EchoStep => "echo-channels"
  | .PeerProxyStep => "peer-proxy"
  | .DynamicProxyStep => "dynamic-proxy"

/-- The readonly type tag declared by each definition class. -/
def StepDefinitionClass.typeTag : StepDefinitionClass → String
  | .WaitForDurationStepDefinition => "wait-for-duration"
  | .WaitForChannelStepDefinition => "wait-for-channel"
  | .WaitForTrackStepDefinition => "wait-for-track"
  | .WaitForMediaStepDefinition => "wait-for-media"
  | .WaitForMessageStepDefinition => "wait-for-message"
  | .SendStepDefinition => "send-message"
  | .CloseStepDefinition => "close-connection"
  | .EchoStepDefinition => "echo-channels"
  | .PeerProxyStepDefinition => "peer-proxy"
  | .DynamicProxyStepDefinition => "dynamic-proxy"

/-- Embedding of the StepLookup table at the end of handler-steps.ts:
each of its ten string keys maps to the executor class listed there, and
any other key is absent. -/
def StepLookup (tag : String) : Option StepClass :=
  if tag = "wait-for-duration" then some .WaitForDurationStep
  else if tag = "wait-for-channel" then some .WaitForChannelStep
  else if tag = "wait-for-track" then some .WaitForTrackStep
  else if tag = "wait-for-media" then some .WaitForMediaStep
  else if tag = "wait-for-message" then some .WaitForMessageStep
  else if tag = "send-message" then some .SendStep
  else if tag = "close-connection" then some .CloseStep
  else if tag = "echo-channels" then some .EchoStep
  else if tag = "peer-proxy" then some .PeerProxyStep
  else if tag = "dynamic-proxy" then some .DynamicProxyStep
  else none

/-- Embedding of the StepDefinitionLookup table at the end of
handler-step-definitions.ts, with the same ten keys. -/
def StepDefinitionLookup (tag : String) : Option StepDefinitionClass :=
  if tag = "wait-for-duration" then some .WaitForDurationStepDefinition
  else if tag = "wait-for-channel" then some .WaitForChannelStepDefinition
  else if tag = "wait-for-track" then some .WaitForTrackStepDefinition
  else if tag = "wait-for-media" then some .WaitForMediaStepDefinition
  else if tag = "wait-for-message" then some .WaitForMessageStepDefinition
  else if tag = "send-message" then some .SendStepDefinition
  else if tag = "close-connection" then some .CloseStepDefinition
  else if tag = "echo-channels" then some .EchoStepDefinition
  else if tag = "peer-proxy" then some .PeerProxyStepDefinition
  else if tag = "dynamic-proxy" then some .DynamicProxyStepDefinition
  else none

/-- The closed set of ten behavior tags, exactly the keys of the two
lookup tables. -/
def stepTags : List String :=
  ["wait-for-duration", "wait-for-channel", "wait-for-track", "wait-for-media",
   "wait-for-message", "send-message", "close-connection", "echo-channels",
   "peer-proxy", "dynamic-proxy"]

/-- Modelled from the spec: the resolution wrapper described in section 4.1
(Contract: resolve of a tag yields the definition/executor pair, failing
with UnknownStepType if the tag is absent). The wrapper itself lives in the
serialization machinery outside src; it is modelled here as consulting the
two lookup tables from the source. -/
def resolve (tag : String) : Except StepError (StepDefinitionClass × StepClass) :=
  match StepDefinitionLookup tag, StepLookup tag with
  | some d, some s => .ok (d, s)
  | _, _ => .error (.UnknownStepType tag)

/-! ### Channel and track streams and the connection (external collaborators) -/

/-- Modelled from the spec: a data channel stream as the steps see it
(section 3): a labelled stream supporting data events, write with an
acknowledgement-or-error callback, and pause. The writeOutcome field
abstracts the transport response to a write of the step message: none means
the callback acknowledges success, some e means the callback reports the
error e. -/
structure DataChannelStream where
  id : Nat
  label : String
  paused : Bool
  writeOutcome : Option String
  deriving DecidableEq, Repr

/-- Modelled from the spec: a media track stream (section 3): a stream
supporting data events and pause. -/
structure MediaTrackStream where
  id : Nat
  paused : Bool
  deriving DecidableEq, Repr

/-- Modelled from the spec: the connection collections the steps read
(section 3): append-only collections of opened local and remote data
channels and media tracks. -/
structure MockRTCConnection where
  channels : List DataChannelStream
  remoteChannels : List DataChannelStream
  mediaTracks : List MediaTrackStream
  remoteMediaTracks : List MediaTrackStream
  deriving DecidableEq, Repr

/-! ### SendStep (handler-steps.ts SendStep.handle) -/

/-- Fields of SendStep: the optional channel label filter and the message. -/
structure SendStep where
  channelLabel : Option String
  message : String
  deriving DecidableEq, Repr

/-- Embedding of SendStep.matchesChannel: the label filter is undefined or
equals the channel label. -/
def SendStep.matchesChannel (step : SendStep) (channel : DataChannelStream) : Bool :=
  decide (step.channelLabel = none) || decide (step.channelLabel = some channel.label)

/-- Observable outcome of SendStep.handle: the ids of the channels a write
was issued on, and the overall settled result. -/
structure SendOutcome where
  writesIssued : List Nat
  result : Except StepError Unit
  deriving Repr

/-- Embedding of SendStep.handle: filter the connection channels by the
label filter, issue a write on every matching channel, and settle like the
surrounding Promise.all: success when every write acknowledges, otherwise
rejection with the first write error, the WriteFailed failure of the
spec. -/
def SendStep.handle (step : SendStep) (channels : List DataChannelStream) : SendOutcome :=
  let matched := channels.filter step.matchesChannel
  { writesIssued := matched.map (fun c => c.id),
    result :=
      match matched.filterMap (fun c => c.writeOutcome) with
      | [] => .ok ()
      | e :: _ => .error (.WriteFailed e) }

/-! ### WaitForChannelStep and WaitForTrackStep (handler-steps.ts) -/

/-- Fields of WaitForChannelStep: the optional channel label filter. -/
structure WaitForChannelStep where
  channelLabel : Option String
  deriving DecidableEq, Repr

/-- Embedding of WaitForChannelStep.matchesChannel. -/
def WaitForChannelStep.matchesChannel (step : WaitForChannelStep)
    (channel : DataChannelStream) : Bool :=
  decide (step.channelLabel = none) || decide (step.channelLabel = some channel.label)

/-- State of a pending WaitForChannelStep.handle promise: whether the
remote-channel-open listener is still registered and whether the promise
has resolved. -/
structure WaitForChannelState where
  listenerActive : Bool
  resolved : Bool
  deriving DecidableEq, Repr

/-- Embedding of the channelOpened callback inside
WaitForChannelStep.handle: on a matching channel it removes the listener
and resolves, otherwise it leaves the state unchanged. -/
def WaitForChannelStep.channelOpened (step : WaitForChannelStep)
    (st : WaitForChannelState) (channel : DataChannelStream) : WaitForChannelState :=
  if step.matchesChannel channel then { listenerActive := false, resolved := true } else st

/-- Embedding of WaitForChannelStep.handle at attach time: it registers the
remote-channel-open listener and then runs channelOpened over every channel
already in connection.remoteChannels. -/
def WaitForChannelStep.attach (step : WaitForChannelStep)
    (conn : MockRTCConnection) : WaitForChannelState :=
  conn.remoteChannels.foldl step.channelOpened
    { listenerActive := true, resolved := false }

/-- A later remote-channel-open event reaches channelOpened only while the
listener is still registered. -/
def WaitForChannelStep.onRemoteChannelOpen (step : WaitForChannelStep)
    (st : WaitForChannelState) (channel : DataChannelStream) : WaitForChannelState :=
  if st.listenerActive then step.channelOpened st channel else st

/-- State of a pending WaitForTrackStep.handle promise. -/
structure WaitForTrackState where
  subscribed : Bool
  resolved : Bool
  deriving DecidableEq, Repr

/-- Embedding of WaitForTrackStep.handle: resolve at once when
connection.remoteMediaTracks is non-empty, otherwise subscribe once to
remote-track-open. -/
def WaitForTrackStep.attach (conn : MockRTCConnection) : WaitForTrackState :=
  if conn.remoteMediaTracks.length ≠ 0 then { subscribed := false, resolved := true }
  else { subscribed := true, resolved := false }

/-! ### Attach-time action order of WaitForChannelStep.handle (for C8) -/

/-- Primitive actions WaitForChannelStep.handle performs when invoked. -/
inductive AttachAction where
  | subscribeRemoteChannelOpen
  | checkExistingChannel (id : Nat)
  deriving DecidableEq, Repr

/-- Recognizer for the check actions. -/
def AttachAction.isCheck : AttachAction → Bool
  | .checkExistingChannel _ => true
  | .subscribeRemoteChannelOpen => false

/-- The ordered list of primitive actions WaitForChannelStep.handle
performs: the source first calls connection.on for remote-channel-open and
only then iterates the already-open connection.remoteChannels. -/
def WaitForChannelStep.attachActions (conn : MockRTCConnection) : List AttachAction :=
  [AttachAction.subscribeRemoteChannelOpen] ++
    conn.remoteChannels.map (fun c => AttachAction.checkExistingChannel c.id)

/-- Statement of the C8 claim in the words of the spec: every check of an
already-open channel happens before the subscription is registered. -/
def checksPrecedeSubscribe (actions : List AttachAction) : Prop :=
  ∀ i j : Fin actions.length,
    actions.get i = AttachAction.subscribeRemoteChannelOpen →
    (actions.get j).isCheck = true →
    (j : Nat) < (i : Nat)

/-- Decidability of the claimed action order, used to evaluate it on a
concrete connection. -/
instance (actions : List AttachAction) : Decidable (checksPrecedeSubscribe actions) := by
  unfold checksPrecedeSubscribe
  infer_instance

/-- The order the source actually uses: the subscription is registered
before every check of an already-open channel. -/
def subscribePrecedesChecks (actions : List AttachAction) : Prop :=
  ∀ i j : Fin actions.length,
    actions.get i = AttachAction.subscribeRemoteChannelOpen →
    (actions.get j).isCheck = true →
    (i : Nat) < (j : Nat)

/-! ### WaitForMessageStep (handler-steps.ts WaitForMessageStep.handle) -/

/-- Fields of WaitForMessageStep: the optional channel label filter. -/
structure WaitForMessageStep where
  channelLabel : Option String
  deriving DecidableEq, Repr

/-- Embedding of WaitForMessageStep.matchesChannel. -/
def WaitForMessageStep.matchesChannel (step : WaitForMessageStep)
    (channel : DataChannelStream) : Bool :=
  decide (step.channelLabel = none) || decide (step.channelLabel = some channel.label)

/-- Run-time state of a pending WaitForMessageStep.handle promise together
with the channel collection it observes: whether the channel-open listener
is still registered, the ids of the channels carrying the once data
listener, whether the promise has resolved, and how many times the
messageReceived callback has run. -/
structure WaitForMessageState where
  channels : List DataChannelStream
  connListenerActive : Bool
  dataListeners : List Nat
  resolved : Bool
  fires : Nat
  deriving DecidableEq, Repr

/-- Embedding of the messageReceived callback inside
WaitForMessageStep.handle: it removes the channel-open listener, then for
every channel in the connection collection removes the data listener and
pauses the channel, and resolves. -/
def WaitForMessageStep.messageReceived (st : WaitForMessageState) : WaitForMessageState :=
  { channels := st.channels.map (fun c => { c with paused := true }),
    connListenerActive := false,
    dataListeners := st.dataListeners.filter
      (fun i => ! st.channels.any (fun c => decide (c.id = i))),
    resolved := true,
    fires := st.fires + 1 }

/-- Embedding of the listenForMessage callback: on a matching channel it
registers the once data listener carrying messageReceived. -/
def WaitForMessageStep.listenForMessage (step : WaitForMessageStep)
    (st : WaitForMessageState) (channel : DataChannelStream) : WaitForMessageState :=
  if step.matchesChannel channel then
    { st with dataListeners := st.dataListeners ++ [channel.id] }
  else st

/-- Embedding of WaitForMessageStep.handle at attach time: it registers the
channel-open listener and then runs listenForMessage over every channel
already in the collection. -/
def WaitForMessageStep.attach (step : WaitForMessageStep)
    (channels : List DataChannelStream) : WaitForMessageState :=
  channels.foldl step.listenForMessage
    { channels := channels, connListenerActive := true, dataListeners := [],
      resolved := false, fires := 0 }

/-- Connection events a pending wait-for-message step can observe: the
transport opens a channel (appending it to the collection and firing
channel-open) or data arrives on the channel with the given id. -/
inductive MessageEvent where
  | channelOpen (channel : DataChannelStream)
  | dataArrives (id : Nat)
  deriving DecidableEq, Repr

/-- One event transition of the pending wait-for-message machine: an opened
channel is appended to the collection and then handed to the channel-open
listener while it is registered; data on a channel is delivered only while
the channel is present and not paused, and a once data listener is removed
as it fires, before messageReceived runs. -/
def WaitForMessageStep.stepEvent (step : WaitForMessageStep)
    (st : WaitForMessageState) : MessageEvent → WaitForMessageState
  | .channelOpen channel =>
      let st1 := { st with channels := st.channels ++ [channel] }
      if st1.connListenerActive then step.listenForMessage st1 channel else st1
  | .dataArrives i =>
      match st.channels.find? (fun c => decide (c.id = i)) with
      | none => st
      | some c =>
          if c.paused then st
          else if st.dataListeners.contains i then
            WaitForMessageStep.messageReceived
              { st with dataListeners := st.dataListeners.erase i }
          else st

/-- Run of the pending wait-for-message machine over an event list. -/
def WaitForMessageStep.run (step : WaitForMessageStep)
    (st : WaitForMessageState) (events : List MessageEvent) : WaitForMessageState :=
  events.foldl step.stepEvent st

/-- Invariant of the pending wait-for-message machine: every data listener
id belongs to a channel in the collection; before resolution the callback
has never run; after resolution it has run exactly once, the channel-open
listener is gone and no data listener remains. -/
def WfmInv (st : WaitForMessageState) : Prop :=
  (∀ i ∈ st.dataListeners, ∃ c ∈ st.channels, c.id = i) ∧
  (st.resolved = false → st.fires = 0) ∧
  (st.resolved = true →
    st.fires = 1 ∧ st.connListenerActive = false ∧ st.dataListeners = [])

/-! ### WaitForMediaStep (handler-steps.ts WaitForMediaStep.handle) -/

/-- Run-time state of a pending WaitForMediaStep.handle promise together
with the track collection it observes. -/
structure WaitForMediaState where
  tracks : List MediaTrackStream
  connListenerActive : Bool
  dataListeners : List Nat
  resolved : Bool
  fires : Nat
  deriving DecidableEq, Repr

/-- Embedding of the messageReceived callback inside
WaitForMediaStep.handle: it removes the track-open listener, then for every
track in the connection collection removes the data listener and pauses the
track, and resolves. -/
def WaitForMediaStep.messageReceived (st : WaitForMediaState) : WaitForMediaState :=
  { tracks := st.tracks.map (fun t => { t with paused := true }),
    connListenerActive := false,
    dataListeners := st.dataListeners.filter
      (fun i => ! st.tracks.any (fun t => decide (t.id = i))),
    resolved := true,
    fires := st.fires + 1 }

/-- Embedding of the listenForData callback: it registers the once data
listener on every track, with no filter. -/
def WaitForMediaStep.listenForData (st : WaitForMediaState)
    (track : MediaTrackStream) : WaitForMediaState :=
  { st with dataListeners := st.dataListeners ++ [track.id] }

/-- Embedding of WaitForMediaStep.handle at attach time: it registers the
track-open listener and then runs listenForData over every track already in
the collection. -/
def WaitForMediaStep.attach (tracks : List MediaTrackStream) : WaitForMediaState :=
  tracks.foldl WaitForMediaStep.listenForData
    { tracks := tracks, connListenerActive := true, dataListeners := [],
      resolved := false, fires := 0 }

/-- Connection events a pending wait-for-media step can observe. -/
inductive MediaEvent where
  | trackOpen (track : MediaTrackStream)
  | dataArrives (id : Nat)
  deriving DecidableEq, Repr

/-- One event transition of the pending wait-for-media machine, mirroring
the wait-for-message one with tracks in place of channels and no label
filter. -/
def WaitForMediaStep.stepEvent (st : WaitForMediaState) : MediaEvent → WaitForMediaState
  | .trackOpen track =>
      let st1 := { st with tracks := st.tracks ++ [track] }
      if st1.connListenerActive then WaitForMediaStep.listenForData st1 track else st1
  | .dataArrives i =>
      match st.tracks.find? (fun t => decide (t.id = i)) with
      | none => st
      | some t =>
          if t.paused then st
          else if st.dataListeners.contains i then
            WaitForMediaStep.messageReceived
              { st with dataListeners := st.dataListeners.erase i }
          else st

/-- Run of the pending wait-for-media machine over an event list. -/
def WaitForMediaStep.run (st : WaitForMediaState)
    (events : List MediaEvent) : WaitForMediaState :=
  events.foldl WaitForMediaStep.stepEvent st

/-- Invariant of the pending wait-for-media machine, mirroring the
wait-for-message one. -/
def WfmediaInv (st : WaitForMediaState) : Prop :=
  (∀ i ∈ st.dataListeners, ∃ t ∈ st.tracks, t.id = i) ∧
  (st.resolved = false → st.fires = 0) ∧
  (st.resolved = true →
    st.fires = 1 ∧ st.connListenerActive = false ∧ st.dataListeners = [])

/-! ### EchoStep (handler-steps.ts EchoStep.handle) -/

/-- Run-time state of a pending EchoStep.handle promise: the ids of the
channel and track streams piped back to themselves and whether the promise
has resolved. -/
structure EchoState where
  pipedChannels : List Nat
  pipedTracks : List Nat
  resolved : Bool
  deriving DecidableEq, Repr

/-- Connection lifecycle events observed by the perpetual steps. -/
inductive ConnectionEvent where
  | channelOpen (channel : DataChannelStream)
  | trackOpen (track : MediaTrackStream)
  | connectionClosed
  deriving DecidableEq, Repr

/-- Embedding of EchoStep.handle at attach time: echoContent pipes every
channel and track already in the collections back to itself, and listeners
are registered for channel-open, track-open and connection-closed. -/
def EchoStep.attach (conn : MockRTCConnection) : EchoState :=
  { pipedChannels := conn.channels.map (fun c => c.id),
    pipedTracks := conn.mediaTracks.map (fun t => t.id),
    resolved := false }

/-- One event transition of the pending echo machine: future opens are
piped by echoContent, and only the connection-closed listener resolves the
parked promise. -/
def EchoStep.stepEvent (st : EchoState) : ConnectionEvent → EchoState
  | .channelOpen c => { st with pipedChannels := st.pipedChannels ++ [c.id] }
  | .trackOpen t => { st with pipedTracks := st.pipedTracks ++ [t.id] }
  | .connectionClosed => { st with resolved := true }

/-- Run of the pending echo machine over an event list. -/
def EchoStep.run (st : EchoState) (events : List ConnectionEvent) : EchoState :=
  events.foldl EchoStep.stepEvent st

/-! ### PeerProxyStep (handler-steps.ts, handler-step-definitions.ts) -/

/-- Modelled from the spec: the external RTCConnection a proxy step creates
(section 3 ExternalConnection): it carries an id and the local description
it offers during negotiation; it is closed on disposal. -/
structure RTCConnection where
  id : Nat
  localDescription : RTCSessionDescriptionInit
  deriving DecidableEq, Repr

/-- Wire request of the dispatch channel RPC: it carries the offer. -/
structure OfferRequest where
  offer : RTCSessionDescriptionInit
  deriving DecidableEq, Repr

/-- Wire response of the dispatch channel RPC: it carries the answer. -/
structure AnswerResponse where
  answer : RTCSessionDescriptionInit
  deriving DecidableEq, Repr

/-- Modelled from the spec: the client-server dispatch channel (section
4.3): the definition side registers an offer-to-answer request handler and
the remote side issues requests against whatever handler is registered; a
throwing handler or a missing handler makes the request fail. -/
structure ClientServerChannel where
  onRequestHandler : Option (OfferRequest → Except String AnswerResponse)

/-- Modelled from the spec: issuing a request over the dispatch channel
runs the registered handler. -/
def ClientServerChannel.request (channel : ClientServerChannel)
    (msg : OfferRequest) : Except String AnswerResponse :=
  match channel.onRequestHandler with
  | some h => h msg
  | none => .error "no handler registered on this channel"

/-- The PeerProxyStep executor: the answer source selected at construction
(a local function or a channel round-trip) and the ids of the owned
external connections. An error value models a throwing answer source. -/
structure PeerProxyStep where
  getAnswer : RTCSessionDescriptionInit → Except String RTCSessionDescriptionInit
  externalConnections : List Nat

/-- Result of PeerProxyStep.handle up to its parking point: either the
negotiation failed or the step parked on connection closure after applying
the answer it obtained. -/
inductive PeerProxyHandleResult where
  | failed (e : StepError)
  | parked (answer : RTCSessionDescriptionInit)
  deriving DecidableEq, Repr

/-- Embedding of PeerProxyStep.handle: the freshly created external
connection is pushed onto externalConnections first; then its local offer
is handed to the configured answer source. A throwing answer source rejects
the handle promise, the NegotiationFailed failure of the spec; otherwise
the answer is applied, traffic is proxied, and the step parks until
connection closure. -/
def PeerProxyStep.handle (step : PeerProxyStep) (externalConn : RTCConnection) :
    PeerProxyStep × PeerProxyHandleResult :=
  let step2 := { step with
    externalConnections := step.externalConnections ++ [externalConn.id] }
  match step.getAnswer externalConn.localDescription with
  | .error e => (step2, .failed (.NegotiationFailed e))
  | .ok answer => (step2, .parked answer)

/-- Embedding of PeerProxyStep.dispose: it closes every owned external
connection; the result lists the ids of the connections closed. -/
def PeerProxyStep.dispose (step : PeerProxyStep) : List Nat :=
  step.externalConnections

/-- Embedding of PeerProxyStep.serialize: it registers the offer-to-answer
request handler backed by the local getAnswer on the channel and returns
the wire form holding only the type tag. -/
def PeerProxyStep.serialize (step : PeerProxyStep) (channel : ClientServerChannel) :
    ClientServerChannel × String :=
  ({ onRequestHandler := some (fun msg =>
      (step.getAnswer msg.offer).map (fun a => { answer := a })) },
   "peer-proxy")

/-- Embedding of PeerProxyStep.deserialize: it builds a fresh PeerProxyStep
whose answer source performs the channel round-trip, ignoring the wire
data beyond the tag. -/
def PeerProxyStep.deserialize (_data : String) (channel : ClientServerChannel) :
    PeerProxyStep :=
  { getAnswer := fun offer =>
      (channel.request { offer := offer }).map (fun r => r.answer),
    externalConnections := [] }

/-- The parked completion promise the perpetual proxy steps share: the
connection-closed listener resolves it and nothing else touches it. -/
def connectionClosedListenerRun (resolved : Bool)
    (events : List ConnectionEvent) : Bool :=
  events.foldl (fun r e => match e with
    | ConnectionEvent.connectionClosed => true
    | _ => r) resolved

/-- The parked phase of PeerProxyStep.handle after a successful
negotiation. -/
def PeerProxyStep.parkedRun (events : List ConnectionEvent) : Bool :=
  connectionClosedListenerRun false events

/-! ### DynamicProxyStep (handler-steps.ts DynamicProxyStep) -/

/-- The DynamicProxyStep executor state: only the owned external
connections list, which the field initializer creates empty. -/
structure DynamicProxyStep where
  externalConnections : List Nat
  deriving DecidableEq, Repr

/-- The constructor of DynamicProxyStep: externalConnections starts
empty. -/
def DynamicProxyStep.new : DynamicProxyStep := { externalConnections := [] }

/-- Embedding of DynamicProxyStep.handle: it delegates proxying to the
connection and parks until connection closure, leaving the step state
untouched. -/
def DynamicProxyStep.handle (step : DynamicProxyStep) : DynamicProxyStep := step

/-- The parked phase of DynamicProxyStep.handle. -/
def DynamicProxyStep.parkedRun (events : List ConnectionEvent) : Bool :=
  connectionClosedListenerRun false events

/-- Embedding of DynamicProxyStep.dispose: it closes every owned external
connection; the result lists the ids of the connections closed. -/
def DynamicProxyStep.dispose (step : DynamicProxyStep) : List Nat :=
  step.externalConnections

/-- Operations a session may invoke on a dynamic-proxy step after
construction. -/
inductive DynOp where
  | handle
  | dispose
  deriving DecidableEq, Repr

/-- Run of a sequence of operations against a dynamic-proxy step: handle
returns the step it was given and dispose reads but never writes the
state. -/
def DynamicProxyStep.runOps (step : DynamicProxyStep) (ops : List DynOp) : DynamicProxyStep :=
  ops.foldl (fun s op => match op with
    | DynOp.handle => s.handle
    | DynOp.dispose => s) step

/-! ### Concrete fixtures used to instantiate the theorems -/

/-- A sample open data channel labelled chat whose writes acknowledge. -/
def chatChannel : DataChannelStream :=
  { id := 0, label := "chat", paused := false, writeOutcome := none }

/-- A sample open data channel with a different label. -/
def newsChannel : DataChannelStream :=
  { id := 1, label := "news", paused := false, writeOutcome := none }

/-- A sample chat channel whose write reports a transport error. -/
def failingChannel : DataChannelStream :=
  { id := 2, label := "chat", paused := false, writeOutcome := some "transport error" }

/-- A sample media track. -/
def sampleTrack : MediaTrackStream := { id := 5, paused := false }

/-- A sample connection with channels, a remote channel and tracks. -/
def sampleConnection : MockRTCConnection :=
  { channels := [chatChannel, newsChannel],
    remoteChannels := [chatChannel],
    mediaTracks := [sampleTrack],
    remoteMediaTracks := [sampleTrack] }

end MockRTC

namespace MockRTC

/-! ## Theorems -/

/-- Resolution is a function of the tag, so a successful resolution is
unique. -/
theorem resolve_ok_unique (tag : String) (d : StepDefinitionClass) (s : StepClass)
    (d2 : StepDefinitionClass) (s2 : StepClass)
    (hq : resolve tag = .ok (d2, s2)) (hp : resolve tag = .ok (d, s)) :
    d2 = d ∧ s2 = s := by
  rw [hp] at hq
  have hpair := Except.ok.inj hq
  exact ⟨(Prod.ext_iff.mp hpair).1.symm, (Prod.ext_iff.mp hpair).2.symm⟩

set_option maxHeartbeats 1600000 in
/-- C1: for every tag in the closed set of ten behaviors, resolution through
the registry yields exactly the definition/executor pair whose type field
equals that tag (StepLookup and StepDefinitionLookup have the same keys,
each mapping to a class carrying that tag), and for any tag outside the set
resolution fails with UnknownStepType rather than succeeding. -/
theorem C1_registry_resolution (tag : String) :
    (tag ∈ stepTags →
      ∃ d s, resolve tag = .ok (d, s) ∧
        StepDefinitionLookup tag = some d ∧ StepLookup tag = some s ∧
        d.typeTag = tag ∧ s.typeTag = tag ∧
        (∀ d2 s2, resolve tag = .ok (d2, s2) → d2 = d ∧ s2 = s)) ∧
    (tag ∉ stepTags → resolve tag = .error (.UnknownStepType tag)) ∧
    ((StepLookup tag).isSome ↔ (StepDefinitionLookup tag).isSome) := by
  refine ⟨?_, ?_, ?_⟩
  · intro h
    fin_cases h <;>
      exact ⟨_, _, rfl, rfl, rfl, rfl, rfl,
        fun d2 s2 he => resolve_ok_unique _ _ _ _ _ he rfl⟩
  · intro h
    simp only [stepTags, List.mem_cons, List.not_mem_nil, or_false, not_or] at h
    obtain ⟨h1, h2, h3, h4, h5, h6, h7, h8, h9, h10⟩ := h
    have hd : StepDefinitionLookup tag = none := by
      simp only [StepDefinitionLookup, if_neg h1, if_neg h2, if_neg h3, if_neg h4,
        if_neg h5, if_neg h6, if_neg h7, if_neg h8, if_neg h9, if_neg h10]
    have hs : StepLookup tag = none := by
      simp only [StepLookup, if_neg h1, if_neg h2, if_neg h3, if_neg h4,
        if_neg h5, if_neg h6, if_neg h7, if_neg h8, if_neg h9, if_neg h10]
    simp only [resolve, hd, hs]
  · simp only [StepLookup, StepDefinitionLookup]
    split_ifs <;> exact Iff.rfl

/-- Witness for C1: instantiated at the tag peer-proxy, which is in the set,
and at a tag outside the set. -/
theorem C1_registry_resolution_witness :
    ("peer-proxy" ∈ stepTags ∧
      ∃ d s, resolve "peer-proxy" = .ok (d, s) ∧
        StepDefinitionLookup "peer-proxy" = some d ∧ StepLookup "peer-proxy" = some s ∧
        d.typeTag = "peer-proxy" ∧ s.typeTag = "peer-proxy" ∧
        (∀ d2 s2, resolve "peer-proxy" = .ok (d2, s2) → d2 = d ∧ s2 = s)) ∧
    ("bogus-step" ∉ stepTags ∧
      resolve "bogus-step" = .error (.UnknownStepType "bogus-step")) := by
  refine ⟨⟨by decide, (C1_registry_resolution "peer-proxy").1 (by decide)⟩,
          ⟨by decide, (C1_registry_resolution "bogus-step").2.1 (by decide)⟩⟩


/-- C3: executing a send-message step writes the message to exactly the
channels matching the optional label filter; with zero matches it settles
successfully at once; with matches it settles successfully exactly when
every write acknowledges, and any failing write makes the whole step fail
with WriteFailed. -/
theorem C3_send_message_writes (step : SendStep) (channels : List DataChannelStream) :
    (step.handle channels).writesIssued
        = (channels.filter step.matchesChannel).map (fun c => c.id) ∧
    (channels.filter step.matchesChannel = [] →
      (step.handle channels).result = .ok ()) ∧
    ((step.handle channels).result = .ok () ↔
      ∀ c ∈ channels.filter step.matchesChannel, c.writeOutcome = none) ∧
    (∀ e c, c ∈ channels.filter step.matchesChannel → c.writeOutcome = some e →
      ∃ e2, (step.handle channels).result = .error (.WriteFailed e2)) := by
  refine ⟨rfl, ?_, ?_, ?_⟩
  · intro h
    simp [SendStep.handle, h]
  · simp only [SendStep.handle]
    cases hm : (channels.filter step.matchesChannel).filterMap (fun c => c.writeOutcome) with
    | nil =>
        simp only [hm]
        exact ⟨fun _ => List.filterMap_eq_nil_iff.mp hm, fun _ => by trivial⟩
    | cons e rest =>
        simp only [hm]
        constructor
        · intro h
          exact absurd h (by simp)
        · intro hall
          exfalso
          have hmem : e ∈ (channels.filter step.matchesChannel).filterMap
              (fun c => c.writeOutcome) := by rw [hm]; exact List.mem_cons_self e rest
          rcases List.mem_filterMap.mp hmem with ⟨c, hc, hw⟩
          rw [hall c hc] at hw
          cases hw
  · intro e c hc hw
    cases hm : (channels.filter step.matchesChannel).filterMap (fun c => c.writeOutcome) with
    | nil =>
        exfalso
        have := List.filterMap_eq_nil_iff.mp hm c hc
        rw [hw] at this
        cases this
    | cons e2 rest =>
        exact ⟨e2, by simp [SendStep.handle, hm]⟩

/-- Witness for C3: a step filtered to the chat label against one matching
channel that acknowledges and one non-matching channel, and the same step
against a failing chat channel. -/
theorem C3_send_message_writes_witness :
    ((SendStep.mk (some "chat") "Goodbye").handle [chatChannel, newsChannel]).writesIssued
        = [chatChannel.id] ∧
    ([chatChannel, newsChannel].filter (SendStep.mk (some "chat") "Goodbye").matchesChannel
        = [chatChannel]) ∧
    (((SendStep.mk (some "chat") "Goodbye").handle [chatChannel, newsChannel]).result
        = .ok ()) ∧
    (∃ e2, ((SendStep.mk (some "chat") "Goodbye").handle [failingChannel]).result
        = .error (.WriteFailed e2)) := by
  have h1 := (C3_send_message_writes (SendStep.mk (some "chat") "Goodbye")
    [chatChannel, newsChannel]).2.2.1.mpr (by decide)
  have h2 := (C3_send_message_writes (SendStep.mk (some "chat") "Goodbye")
    [failingChannel]).2.2.2 "transport error" failingChannel (by decide) (by decide)
  exact ⟨by decide, by decide, h1, h2⟩

/-- The channelOpened callback keeps a resolved wait resolved. -/
theorem wfc_channelOpened_resolved (step : WaitForChannelStep)
    (st : WaitForChannelState) (c : DataChannelStream) (h : st.resolved = true) :
    (step.channelOpened st c).resolved = true := by
  unfold WaitForChannelStep.channelOpened
  split <;> simp [h]

/-- Folding channelOpened over any channel list keeps a resolved wait
resolved. -/
theorem wfc_foldl_resolved (step : WaitForChannelStep) (l : List DataChannelStream)
    (st : WaitForChannelState) (h : st.resolved = true) :
    (l.foldl step.channelOpened st).resolved = true := by
  induction l generalizing st with
  | nil => exact h
  | cons c rest ih => exact ih _ (wfc_channelOpened_resolved step st c h)

/-- Folding channelOpened over a list containing a matching channel
resolves the wait. -/
theorem wfc_foldl_match_resolved (step : WaitForChannelStep)
    (l : List DataChannelStream) (st : WaitForChannelState)
    (h : ∃ c ∈ l, step.matchesChannel c = true) :
    (l.foldl step.channelOpened st).resolved = true := by
  induction l generalizing st with
  | nil =>
      rcases h with ⟨c, hc, _⟩
      cases hc
  | cons c rest ih =>
      rcases h with ⟨c2, hc2, hm⟩
      rcases List.mem_cons.mp hc2 with h1 | h2
      · subst h1
        exact wfc_foldl_resolved step rest _ (by simp [WaitForChannelStep.channelOpened, hm])
      · exact ih _ ⟨c2, h2, hm⟩

/-- C4: a wait-for-channel step whose connection already holds a matching
remote channel resolves at attach time, with no further event required;
likewise a wait-for-track step resolves at attach time whenever
remoteMediaTracks is non-empty. -/
theorem C4_existing_items_satisfy_waits (step : WaitForChannelStep)
    (conn : MockRTCConnection) :
    ((∃ c ∈ conn.remoteChannels, step.matchesChannel c = true) →
      (step.attach conn).resolved = true) ∧
    (conn.remoteMediaTracks ≠ [] →
      (WaitForTrackStep.attach conn).resolved = true) := by
  constructor
  · intro h
    exact wfc_foldl_match_resolved step conn.remoteChannels _ h
  · intro h
    have hlen : conn.remoteMediaTracks.length ≠ 0 := by
      simpa [List.length_eq_zero] using h
    simp [WaitForTrackStep.attach, hlen]

/-- Witness for C4: the sample connection already holds a matching remote
chat channel and a remote track. -/
theorem C4_existing_items_satisfy_waits_witness :
    ((∃ c ∈ sampleConnection.remoteChannels,
        (WaitForChannelStep.mk (some "chat")).matchesChannel c = true) ∧
      ((WaitForChannelStep.mk (some "chat")).attach sampleConnection).resolved = true) ∧
    (sampleConnection.remoteMediaTracks ≠ [] ∧
      (WaitForTrackStep.attach sampleConnection).resolved = true) := by
  have h1 : ∃ c ∈ sampleConnection.remoteChannels,
      (WaitForChannelStep.mk (some "chat")).matchesChannel c = true := by decide
  have h2 : sampleConnection.remoteMediaTracks ≠ [] := by decide
  exact ⟨⟨h1, (C4_existing_items_satisfy_waits _ sampleConnection).1 h1⟩,
         ⟨h2, (C4_existing_items_satisfy_waits (WaitForChannelStep.mk (some "chat"))
            sampleConnection).2 h2⟩⟩

/-- C8 as stated is false on the source: WaitForChannelStep.handle
registers the remote-channel-open subscription first and only then checks
the already-open channels, so on a connection with one already-open remote
channel the check does not precede the subscription. -/
theorem C8_counterexample :
    ¬ checksPrecedeSubscribe (WaitForChannelStep.attachActions sampleConnection) := by
  decide

/-- In a subscribe-first action list whose tail is all checks, the
subscription precedes every check. -/
theorem subscribe_head_precedes (l : List AttachAction)
    (hAll : ∀ x ∈ l, x.isCheck = true) :
    subscribePrecedesChecks (AttachAction.subscribeRemoteChannelOpen :: l) := by
  intro i j hsub hchk
  rcases i with ⟨iv, hiv⟩
  rcases j with ⟨jv, hjv⟩
  cases iv with
  | zero =>
      cases jv with
      | zero => simp [List.get, AttachAction.isCheck] at hchk
      | succ n => exact Nat.zero_lt_succ n
  | succ k =>
      exfalso
      have heq : (AttachAction.subscribeRemoteChannelOpen :: l).get ⟨k + 1, hiv⟩
          = l.get ⟨k, Nat.lt_of_succ_lt_succ hiv⟩ := rfl
      rw [heq] at hsub
      have hmem := List.get_mem l k (Nat.lt_of_succ_lt_succ hiv)
      rw [hsub] at hmem
      have := hAll _ hmem
      simp [AttachAction.isCheck] at this

/-- C8 amended: the executor registers the remote-channel-open subscription
first and then checks the channels already open on the remote side, so the
subscription action precedes every check action. -/
theorem C8_amended_subscribe_then_check (conn : MockRTCConnection) :
    subscribePrecedesChecks (WaitForChannelStep.attachActions conn) := by
  show subscribePrecedesChecks (AttachAction.subscribeRemoteChannelOpen ::
    conn.remoteChannels.map (fun c => AttachAction.checkExistingChannel c.id))
  apply subscribe_head_precedes
  intro x hx
  rcases List.mem_map.mp hx with ⟨c, _, rfl⟩
  rfl

/-- Witness for C8 amended: the subscribe-then-check order holds on the
sample connection. -/
theorem C8_amended_subscribe_then_check_witness :
    subscribePrecedesChecks (WaitForChannelStep.attachActions sampleConnection) :=
  C8_amended_subscribe_then_check sampleConnection


/-- The listenForMessage callback changes only the data listeners. -/
theorem wfm_listen_fields (step : WaitForMessageStep) (st : WaitForMessageState)
    (c : DataChannelStream) :
    (step.listenForMessage st c).channels = st.channels ∧
    (step.listenForMessage st c).resolved = st.resolved ∧
    (step.listenForMessage st c).connListenerActive = st.connListenerActive ∧
    (step.listenForMessage st c).fires = st.fires := by
  unfold WaitForMessageStep.listenForMessage
  split <;> exact ⟨rfl, rfl, rfl, rfl⟩

/-- The listenForMessage callback preserves the invariant when the channel
is in the collection and the wait has not yet resolved. -/
theorem wfm_listen_inv (step : WaitForMessageStep) (st : WaitForMessageState)
    (c : DataChannelStream) (h : WfmInv st) (hc : c ∈ st.channels)
    (hres : st.resolved = false) : WfmInv (step.listenForMessage st c) := by
  unfold WaitForMessageStep.listenForMessage
  split
  · refine ⟨?_, ?_, ?_⟩
    · intro i hi
      rcases List.mem_append.mp hi with hold | hnew
      · exact h.1 i hold
      · have hid : i = c.id := List.mem_singleton.mp hnew
        exact ⟨c, hc, hid.symm⟩
    · intro _
      exact h.2.1 hres
    · intro htrue
      have h2 : st.resolved = true := htrue
      rw [hres] at h2
      exact Bool.noConfusion h2
  · exact h

/-- Folding listenForMessage over channels of the collection preserves the
invariant. -/
theorem wfm_foldl_listen_inv (step : WaitForMessageStep)
    (l : List DataChannelStream) (st : WaitForMessageState)
    (hInv : WfmInv st) (hres : st.resolved = false)
    (hsub : ∀ c ∈ l, c ∈ st.channels) :
    WfmInv (l.foldl step.listenForMessage st) := by
  induction l generalizing st with
  | nil => exact hInv
  | cons c rest ih =>
      have hc := hsub c (List.mem_cons_self c rest)
      have h1 := wfm_listen_inv step st c hInv hc hres
      have hch := (wfm_listen_fields step st c).1
      have hrs := (wfm_listen_fields step st c).2.1
      exact ih (step.listenForMessage st c) h1 (hrs.trans hres)
        (fun c2 hc2 => hch ▸ hsub c2 (List.mem_cons_of_mem c hc2))

/-- The attach-time state of a wait-for-message step satisfies the
invariant. -/
theorem wfm_attach_inv (step : WaitForMessageStep)
    (channels : List DataChannelStream) : WfmInv (step.attach channels) := by
  apply wfm_foldl_listen_inv
  · refine ⟨?_, fun _ => rfl, ?_⟩
    · intro i hi
      exact absurd hi (List.not_mem_nil i)
    · intro htrue
      exact Bool.noConfusion htrue
  · rfl
  · intro c hc
    exact hc

/-- After the messageReceived callback runs, no data listener remains,
provided every listener id belonged to a channel of the collection. -/
theorem wfm_messageReceived_clears (st : WaitForMessageState)
    (h : ∀ i ∈ st.dataListeners, ∃ c ∈ st.channels, c.id = i) :
    (WaitForMessageStep.messageReceived st).dataListeners = [] := by
  apply List.filter_eq_nil_iff.mpr
  intro j hj
  rcases h j hj with ⟨c2, hc2, hid⟩
  simp only [Bool.not_eq_true', Bool.not_eq_false]
  exact List.any_eq_true.mpr ⟨c2, hc2, decide_eq_true hid⟩

/-- One event transition preserves the invariant. -/
theorem wfm_stepEvent_inv (step : WaitForMessageStep) (st : WaitForMessageState)
    (e : MessageEvent) (h : WfmInv st) : WfmInv (step.stepEvent st e) := by
  cases e with
  | channelOpen channel =>
      have hInv1 : WfmInv { st with channels := st.channels ++ [channel] } := by
        refine ⟨?_, h.2.1, h.2.2⟩
        intro i hi
        rcases h.1 i hi with ⟨c2, hc2, hid⟩
        exact ⟨c2, List.mem_append_left _ hc2, hid⟩
      show WfmInv (if st.connListenerActive then
          step.listenForMessage { st with channels := st.channels ++ [channel] } channel
        else { st with channels := st.channels ++ [channel] })
      by_cases hl : st.connListenerActive = true
      · rw [if_pos hl]
        by_cases hr : st.resolved = true
        · have hfalse := (h.2.2 hr).2.1
          rw [hl] at hfalse
          exact Bool.noConfusion hfalse
        · have hres : st.resolved = false := by
            revert hr
            cases st.resolved <;> simp
          exact wfm_listen_inv step _ channel hInv1
            (List.mem_append_right _ (List.mem_singleton.mpr rfl)) hres
      · rw [if_neg hl]
        exact hInv1
  | dataArrives i =>
      show WfmInv (match st.channels.find? (fun c => decide (c.id = i)) with
        | none => st
        | some c =>
            if c.paused then st
            else if st.dataListeners.contains i then
              WaitForMessageStep.messageReceived
                { st with dataListeners := st.dataListeners.erase i }
            else st)
      cases hfind : st.channels.find? (fun c => decide (c.id = i)) with
      | none => exact h
      | some c =>
          by_cases hp : c.paused = true
          · simp only [hp, if_true]
            exact h
          · have hp2 : c.paused = false := by
              revert hp
              cases c.paused <;> simp
            simp only [hp2, Bool.false_eq_true, if_false]
            by_cases hcont : st.dataListeners.contains i = true
            · simp only [hcont, if_true]
              have hres : st.resolved = false := by
                by_cases hr : st.resolved = true
                · have hnil := (h.2.2 hr).2.2
                  rw [hnil] at hcont
                  exact Bool.noConfusion hcont
                · revert hr
                  cases st.resolved <;> simp
              have hfz : st.fires = 0 := h.2.1 hres
              have hclear : (WaitForMessageStep.messageReceived
                  { st with dataListeners := st.dataListeners.erase i }).dataListeners = [] := by
                apply wfm_messageReceived_clears
                intro j hj
                exact h.1 j (List.mem_of_mem_erase hj)
              refine ⟨?_, ?_, ?_⟩
              · intro j hj
                rw [hclear] at hj
                exact absurd hj (List.not_mem_nil j)
              · intro hfalse
                exact Bool.noConfusion hfalse
              · intro _
                refine ⟨?_, rfl, hclear⟩
                show st.fires + 1 = 1
                rw [hfz]
            · have hcont2 : st.dataListeners.contains i = false := by
                revert hcont
                cases st.dataListeners.contains i <;> simp
              simp only [hcont2, Bool.false_eq_true, if_false]
              exact h

/-- A resolved wait-for-message machine stays resolved across any event. -/
theorem wfm_stepEvent_resolved_mono (step : WaitForMessageStep)
    (st : WaitForMessageState) (e : MessageEvent) (h : st.resolved = true) :
    (step.stepEvent st e).resolved = true := by
  cases e with
  | channelOpen channel =>
      show (if st.connListenerActive then
          step.listenForMessage { st with channels := st.channels ++ [channel] } channel
        else { st with channels := st.channels ++ [channel] }).resolved = true
      by_cases hl : st.connListenerActive = true
      · rw [if_pos hl]
        exact ((wfm_listen_fields step _ channel).2.1).trans h
      · rw [if_neg hl]
        exact h
  | dataArrives i =>
      have hgoal : step.stepEvent st (MessageEvent.dataArrives i)
          = (match st.channels.find? (fun c => decide (c.id = i)) with
            | none => st
            | some c =>
                if c.paused then st
                else if st.dataListeners.contains i then
                  WaitForMessageStep.messageReceived
                    { st with dataListeners := st.dataListeners.erase i }
                else st) := rfl
      rw [hgoal]
      cases hfind : st.channels.find? (fun c => decide (c.id = i)) with
      | none => exact h
      | some c =>
          by_cases hp : c.paused = true
          · simp only [hp, if_true]
            exact h
          · have hp2 : c.paused = false := by
              revert hp
              cases c.paused <;> simp
            simp only [hp2, Bool.false_eq_true, if_false]
            by_cases hcont : st.dataListeners.contains i = true
            · simp only [hcont, if_true]
              rfl
            · have hcont2 : st.dataListeners.contains i = false := by
                revert hcont
                cases st.dataListeners.contains i <;> simp
              simp only [hcont2, Bool.false_eq_true, if_false]
              exact h

/-- Runs preserve the invariant. -/
theorem wfm_run_inv (step : WaitForMessageStep) (st : WaitForMessageState)
    (events : List MessageEvent) (h : WfmInv st) : WfmInv (step.run st events) := by
  induction events generalizing st with
  | nil => exact h
  | cons e rest ih => exact ih _ (wfm_stepEvent_inv step st e h)

/-- Runs keep a resolved machine resolved. -/
theorem wfm_run_resolved_mono (step : WaitForMessageStep) (st : WaitForMessageState)
    (events : List MessageEvent) (h : st.resolved = true) :
    (step.run st events).resolved = true := by
  induction events generalizing st with
  | nil => exact h
  | cons e rest ih => exact ih _ (wfm_stepEvent_resolved_mono step st e h)


/-- The listenForData callback changes only the data listeners. -/
theorem wfmedia_listen_fields (st : WaitForMediaState) (t : MediaTrackStream) :
    (WaitForMediaStep.listenForData st t).tracks = st.tracks ∧
    (WaitForMediaStep.listenForData st t).resolved = st.resolved ∧
    (WaitForMediaStep.listenForData st t).connListenerActive = st.connListenerActive ∧
    (WaitForMediaStep.listenForData st t).fires = st.fires :=
  ⟨rfl, rfl, rfl, rfl⟩

/-- The listenForData callback preserves the invariant when the track is in
the collection and the wait has not yet resolved. -/
theorem wfmedia_listen_inv (st : WaitForMediaState) (t : MediaTrackStream)
    (h : WfmediaInv st) (ht : t ∈ st.tracks) (hres : st.resolved = false) :
    WfmediaInv (WaitForMediaStep.listenForData st t) := by
  refine ⟨?_, ?_, ?_⟩
  · intro i hi
    rcases List.mem_append.mp hi with hold | hnew
    · exact h.1 i hold
    · have hid : i = t.id := List.mem_singleton.mp hnew
      exact ⟨t, ht, hid.symm⟩
  · intro _
    exact h.2.1 hres
  · intro htrue
    have h2 : st.resolved = true := htrue
    rw [hres] at h2
    exact Bool.noConfusion h2

/-- Folding listenForData over tracks of the collection preserves the
invariant. -/
theorem wfmedia_foldl_listen_inv (l : List MediaTrackStream) (st : WaitForMediaState)
    (hInv : WfmediaInv st) (hres : st.resolved = false)
    (hsub : ∀ t ∈ l, t ∈ st.tracks) :
    WfmediaInv (l.foldl WaitForMediaStep.listenForData st) := by
  induction l generalizing st with
  | nil => exact hInv
  | cons t rest ih =>
      have ht := hsub t (List.mem_cons_self t rest)
      have h1 := wfmedia_listen_inv st t hInv ht hres
      exact ih (WaitForMediaStep.listenForData st t) h1 hres
        (fun t2 ht2 => hsub t2 (List.mem_cons_of_mem t ht2))

/-- The attach-time state of a wait-for-media step satisfies the
invariant. -/
theorem wfmedia_attach_inv (tracks : List MediaTrackStream) :
    WfmediaInv (WaitForMediaStep.attach tracks) := by
  apply wfmedia_foldl_listen_inv
  · refine ⟨?_, fun _ => rfl, ?_⟩
    · intro i hi
      exact absurd hi (List.not_mem_nil i)
    · intro htrue
      exact Bool.noConfusion htrue
  · rfl
  · intro t ht
    exact ht

/-- After the wait-for-media messageReceived callback runs, no data
listener remains, provided every listener id belonged to a track of the
collection. -/
theorem wfmedia_messageReceived_clears (st : WaitForMediaState)
    (h : ∀ i ∈ st.dataListeners, ∃ t ∈ st.tracks, t.id = i) :
    (WaitForMediaStep.messageReceived st).dataListeners = [] := by
  apply List.filter_eq_nil_iff.mpr
  intro j hj
  rcases h j hj with ⟨t2, ht2, hid⟩
  simp only [Bool.not_eq_true', Bool.not_eq_false]
  exact List.any_eq_true.mpr ⟨t2, ht2, decide_eq_true hid⟩

/-- One event transition of the wait-for-media machine preserves the
invariant. -/
theorem wfmedia_stepEvent_inv (st : WaitForMediaState) (e : MediaEvent)
    (h : WfmediaInv st) : WfmediaInv (WaitForMediaStep.stepEvent st e) := by
  cases e with
  | trackOpen track =>
      have hInv1 : WfmediaInv { st with tracks := st.tracks ++ [track] } := by
        refine ⟨?_, h.2.1, h.2.2⟩
        intro i hi
        rcases h.1 i hi with ⟨t2, ht2, hid⟩
        exact ⟨t2, List.mem_append_left _ ht2, hid⟩
      show WfmediaInv (if st.connListenerActive then
          WaitForMediaStep.listenForData { st with tracks := st.tracks ++ [track] } track
        else { st with tracks := st.tracks ++ [track] })
      by_cases hl : st.connListenerActive = true
      · rw [if_pos hl]
        by_cases hr : st.resolved = true
        · have hfalse := (h.2.2 hr).2.1
          rw [hl] at hfalse
          exact Bool.noConfusion hfalse
        · have hres : st.resolved = false := by
            revert hr
            cases st.resolved <;> simp
          exact wfmedia_listen_inv _ track hInv1
            (List.mem_append_right _ (List.mem_singleton.mpr rfl)) hres
      · rw [if_neg hl]
        exact hInv1
  | dataArrives i =>
      show WfmediaInv (match st.tracks.find? (fun t => decide (t.id = i)) with
        | none => st
        | some t =>
            if t.paused then st
            else if st.dataListeners.contains i then
              WaitForMediaStep.messageReceived
                { st with dataListeners := st.dataListeners.erase i }
            else st)
      cases hfind : st.tracks.find? (fun t => decide (t.id = i)) with
      | none => exact h
      | some t =>
          by_cases hp : t.paused = true
          · simp only [hp, if_true]
            exact h
          · have hp2 : t.paused = false := by
              revert hp
              cases t.paused <;> simp
            simp only [hp2, Bool.false_eq_true, if_false]
            by_cases hcont : st.dataListeners.contains i = true
            · simp only [hcont, if_true]
              have hres : st.resolved = false := by
                by_cases hr : st.resolved = true
                · have hnil := (h.2.2 hr).2.2
                  rw [hnil] at hcont
                  exact Bool.noConfusion hcont
                · revert hr
                  cases st.resolved <;> simp
              have hfz : st.fires = 0 := h.2.1 hres
              have hclear : (WaitForMediaStep.messageReceived
                  { st with dataListeners := st.dataListeners.erase i }).dataListeners = [] := by
                apply wfmedia_messageReceived_clears
                intro j hj
                exact h.1 j (List.mem_of_mem_erase hj)
              refine ⟨?_, ?_, ?_⟩
              · intro j hj
                rw [hclear] at hj
                exact absurd hj (List.not_mem_nil j)
              · intro hfalse
                exact Bool.noConfusion hfalse
              · intro _
                refine ⟨?_, rfl, hclear⟩
                show st.fires + 1 = 1
                rw [hfz]
            · have hcont2 : st.dataListeners.contains i = false := by
                revert hcont
                cases st.dataListeners.contains i <;> simp
              simp only [hcont2, Bool.false_eq_true, if_false]
              exact h

/-- A resolved wait-for-media machine stays resolved across any event. -/
theorem wfmedia_stepEvent_resolved_mono (st : WaitForMediaState) (e : MediaEvent)
    (h : st.resolved = true) : (WaitForMediaStep.stepEvent st e).resolved = true := by
  cases e with
  | trackOpen track =>
      show (if st.connListenerActive then
          WaitForMediaStep.listenForData { st with tracks := st.tracks ++ [track] } track
        else { st with tracks := st.tracks ++ [track] }).resolved = true
      by_cases hl : st.connListenerActive = true
      · rw [if_pos hl]
        exact h
      · rw [if_neg hl]
        exact h
  | dataArrives i =>
      have hgoal : WaitForMediaStep.stepEvent st (MediaEvent.dataArrives i)
          = (match st.tracks.find? (fun t => decide (t.id = i)) with
            | none => st
            | some t =>
                if t.paused then st
                else if st.dataListeners.contains i then
                  WaitForMediaStep.messageReceived
                    { st with dataListeners := st.dataListeners.erase i }
                else st) := rfl
      rw [hgoal]
      cases hfind : st.tracks.find? (fun t => decide (t.id = i)) with
      | none => exact h
      | some t =>
          by_cases hp : t.paused = true
          · simp only [hp, if_true]
            exact h
          · have hp2 : t.paused = false := by
              revert hp
              cases t.paused <;> simp
            simp only [hp2, Bool.false_eq_true, if_false]
            by_cases hcont : st.dataListeners.contains i = true
            · simp only [hcont, if_true]
              rfl
            · have hcont2 : st.dataListeners.contains i = false := by
                revert hcont
                cases st.dataListeners.contains i <;> simp
              simp only [hcont2, Bool.false_eq_true, if_false]
              exact h

/-- Runs of the wait-for-media machine preserve the invariant. -/
theorem wfmedia_run_inv (st : WaitForMediaState) (events : List MediaEvent)
    (h : WfmediaInv st) : WfmediaInv (WaitForMediaStep.run st events) := by
  induction events generalizing st with
  | nil => exact h
  | cons e rest ih => exact ih _ (wfmedia_stepEvent_inv st e h)

/-- Runs of the wait-for-media machine keep a resolved machine resolved. -/
theorem wfmedia_run_resolved_mono (st : WaitForMediaState) (events : List MediaEvent)
    (h : st.resolved = true) : (WaitForMediaStep.run st events).resolved = true := by
  induction events generalizing st with
  | nil => exact h
  | cons e rest ih => exact ih _ (wfmedia_stepEvent_resolved_mono st e h)


/-- C5: once a wait-for-message or wait-for-media step has completed, its
channel-open/track-open listener and every data listener it registered are
gone, the completion callback ran exactly once, and no further events make
any of its internal listeners run again. -/
theorem C5_single_fire (step : WaitForMessageStep) (channels : List DataChannelStream)
    (events more : List MessageEvent)
    (tracks : List MediaTrackStream) (mevents mmore : List MediaEvent) :
    ((step.run (step.attach channels) events).resolved = true →
      (step.run (step.attach channels) events).connListenerActive = false ∧
      (step.run (step.attach channels) events).dataListeners = [] ∧
      (step.run (step.attach channels) events).fires = 1 ∧
      (step.run (step.run (step.attach channels) events) more).fires = 1) ∧
    ((WaitForMediaStep.run (WaitForMediaStep.attach tracks) mevents).resolved = true →
      (WaitForMediaStep.run (WaitForMediaStep.attach tracks) mevents).connListenerActive = false ∧
      (WaitForMediaStep.run (WaitForMediaStep.attach tracks) mevents).dataListeners = [] ∧
      (WaitForMediaStep.run (WaitForMediaStep.attach tracks) mevents).fires = 1 ∧
      (WaitForMediaStep.run
        (WaitForMediaStep.run (WaitForMediaStep.attach tracks) mevents) mmore).fires = 1) := by
  constructor
  · intro hres
    have hInv := wfm_run_inv step _ events (wfm_attach_inv step channels)
    have h3 := hInv.2.2 hres
    refine ⟨h3.2.1, h3.2.2, h3.1, ?_⟩
    have hInv2 := wfm_run_inv step _ more hInv
    have hres2 := wfm_run_resolved_mono step _ more hres
    exact (hInv2.2.2 hres2).1
  · intro hres
    have hInv := wfmedia_run_inv _ mevents (wfmedia_attach_inv tracks)
    have h3 := hInv.2.2 hres
    refine ⟨h3.2.1, h3.2.2, h3.1, ?_⟩
    have hInv2 := wfmedia_run_inv _ mmore hInv
    have hres2 := wfmedia_run_resolved_mono _ mmore hres
    exact (hInv2.2.2 hres2).1

/-- Witness for C5: an unfiltered wait-for-message step over the chat
channel fired by one data event, then fed the same data event again, and
the analogous wait-for-media run. -/
theorem C5_single_fire_witness :
    (((WaitForMessageStep.mk none).run
        ((WaitForMessageStep.mk none).attach [chatChannel])
        [MessageEvent.dataArrives 0]).resolved = true ∧
      ((WaitForMessageStep.mk none).run
        ((WaitForMessageStep.mk none).attach [chatChannel])
        [MessageEvent.dataArrives 0]).connListenerActive = false ∧
      ((WaitForMessageStep.mk none).run
        ((WaitForMessageStep.mk none).attach [chatChannel])
        [MessageEvent.dataArrives 0]).dataListeners = [] ∧
      ((WaitForMessageStep.mk none).run
        ((WaitForMessageStep.mk none).attach [chatChannel])
        [MessageEvent.dataArrives 0]).fires = 1 ∧
      ((WaitForMessageStep.mk none).run
        ((WaitForMessageStep.mk none).run
          ((WaitForMessageStep.mk none).attach [chatChannel])
          [MessageEvent.dataArrives 0])
        [MessageEvent.dataArrives 0]).fires = 1) ∧
    ((WaitForMediaStep.run (WaitForMediaStep.attach [sampleTrack])
        [MediaEvent.dataArrives 5]).resolved = true ∧
      (WaitForMediaStep.run
        (WaitForMediaStep.run (WaitForMediaStep.attach [sampleTrack])
          [MediaEvent.dataArrives 5])
        [MediaEvent.dataArrives 5]).fires = 1) := by
  have hres1 : ((WaitForMessageStep.mk none).run
      ((WaitForMessageStep.mk none).attach [chatChannel])
      [MessageEvent.dataArrives 0]).resolved = true := by decide
  have hres2 : (WaitForMediaStep.run (WaitForMediaStep.attach [sampleTrack])
      [MediaEvent.dataArrives 5]).resolved = true := by decide
  have h1 := (C5_single_fire (WaitForMessageStep.mk none) [chatChannel]
    [MessageEvent.dataArrives 0] [MessageEvent.dataArrives 0]
    [sampleTrack] [MediaEvent.dataArrives 5] [MediaEvent.dataArrives 5]).1 hres1
  have h2 := (C5_single_fire (WaitForMessageStep.mk none) [chatChannel]
    [MessageEvent.dataArrives 0] [MessageEvent.dataArrives 0]
    [sampleTrack] [MediaEvent.dataArrives 5] [MediaEvent.dataArrives 5]).2 hres2
  exact ⟨⟨hres1, h1.1, h1.2.1, h1.2.2.1, h1.2.2.2⟩, ⟨hres2, h2.2.2.2⟩⟩

/-- C9: whenever an event makes a wait-for-message step fire, the
post-state pauses every channel then in the connection collection,
including channels that do not match the label filter and channels the
step never registered a data listener on. -/
theorem C9_fire_pauses_every_channel (step : WaitForMessageStep)
    (st : WaitForMessageState) (e : MessageEvent)
    (hfire : (step.stepEvent st e).fires = st.fires + 1) :
    (∀ c ∈ (step.stepEvent st e).channels, c.paused = true) ∧
    (∀ c ∈ st.channels, { c with paused := true } ∈ (step.stepEvent st e).channels) := by
  cases e with
  | channelOpen channel =>
      exfalso
      have hf : (step.stepEvent st (MessageEvent.channelOpen channel)).fires = st.fires := by
        show (if st.connListenerActive then
            step.listenForMessage { st with channels := st.channels ++ [channel] } channel
          else { st with channels := st.channels ++ [channel] }).fires = st.fires
        by_cases hl : st.connListenerActive = true
        · rw [if_pos hl]
          exact (wfm_listen_fields step _ channel).2.2.2
        · rw [if_neg hl]
      rw [hf] at hfire
      omega
  | dataArrives i =>
      cases hfind : st.channels.find? (fun c => decide (c.id = i)) with
      | none =>
          exfalso
          have hstep : step.stepEvent st (MessageEvent.dataArrives i) = st := by
            show (match st.channels.find? (fun c => decide (c.id = i)) with
              | none => st
              | some c =>
                  if c.paused then st
                  else if st.dataListeners.contains i then
                    WaitForMessageStep.messageReceived
                      { st with dataListeners := st.dataListeners.erase i }
                  else st) = st
            rw [hfind]
          rw [hstep] at hfire
          omega
      | some c =>
          have hstep : step.stepEvent st (MessageEvent.dataArrives i)
              = (if c.paused then st
                else if st.dataListeners.contains i then
                  WaitForMessageStep.messageReceived
                    { st with dataListeners := st.dataListeners.erase i }
                else st) := by
            show (match st.channels.find? (fun c => decide (c.id = i)) with
              | none => st
              | some c =>
                  if c.paused then st
                  else if st.dataListeners.contains i then
                    WaitForMessageStep.messageReceived
                      { st with dataListeners := st.dataListeners.erase i }
                  else st) = _
            rw [hfind]
          rw [hstep] at hfire ⊢
          by_cases hp : c.paused = true
          · rw [if_pos hp] at hfire
            omega
          · rw [if_neg hp] at hfire ⊢
            by_cases hcont : st.dataListeners.contains i = true
            · rw [if_pos hcont] at hfire ⊢
              constructor
              · intro c2 hc2
                rcases List.mem_map.mp hc2 with ⟨c3, _, heq⟩
                rw [← heq]
              · intro c2 hc2
                exact List.mem_map_of_mem _ hc2
            · rw [if_neg hcont] at hfire
              omega

/-- Witness for C9: a chat-filtered step watching the chat channel fires on
chat data, and the unmatched news channel, which carried no data listener,
is paused too. -/
theorem C9_fire_pauses_every_channel_witness :
    ((WaitForMessageStep.mk (some "chat")).stepEvent
        ((WaitForMessageStep.mk (some "chat")).attach [chatChannel, newsChannel])
        (MessageEvent.dataArrives 0)).fires
      = ((WaitForMessageStep.mk (some "chat")).attach [chatChannel, newsChannel]).fires + 1 ∧
    (∀ c ∈ ((WaitForMessageStep.mk (some "chat")).stepEvent
        ((WaitForMessageStep.mk (some "chat")).attach [chatChannel, newsChannel])
        (MessageEvent.dataArrives 0)).channels, c.paused = true) ∧
    { newsChannel with paused := true } ∈ ((WaitForMessageStep.mk (some "chat")).stepEvent
        ((WaitForMessageStep.mk (some "chat")).attach [chatChannel, newsChannel])
        (MessageEvent.dataArrives 0)).channels := by
  have hfire : ((WaitForMessageStep.mk (some "chat")).stepEvent
      ((WaitForMessageStep.mk (some "chat")).attach [chatChannel, newsChannel])
      (MessageEvent.dataArrives 0)).fires
        = ((WaitForMessageStep.mk (some "chat")).attach [chatChannel, newsChannel]).fires + 1 := by
    decide
  have h := C9_fire_pauses_every_channel (WaitForMessageStep.mk (some "chat"))
    ((WaitForMessageStep.mk (some "chat")).attach [chatChannel, newsChannel])
    (MessageEvent.dataArrives 0) hfire
  exact ⟨hfire, h.1, h.2 newsChannel (by decide)⟩


/-- The shared connection-closed listener resolves exactly when it starts
resolved or a connection-closed event occurs. -/
theorem closedListenerRun_iff (resolved : Bool) (events : List ConnectionEvent) :
    connectionClosedListenerRun resolved events = true ↔
      (resolved = true ∨ ConnectionEvent.connectionClosed ∈ events) := by
  induction events generalizing resolved with
  | nil =>
      simp [connectionClosedListenerRun]
  | cons e rest ih =>
      have hstep : connectionClosedListenerRun resolved (e :: rest)
          = connectionClosedListenerRun (match e with
              | ConnectionEvent.connectionClosed => true
              | _ => resolved) rest := rfl
      rw [hstep]
      cases e with
      | channelOpen c =>
          rw [ih]
          simp
      | trackOpen t =>
          rw [ih]
          simp
      | connectionClosed =>
          rw [ih]
          simp

/-- The echo machine resolves exactly when it starts resolved or a
connection-closed event occurs. -/
theorem echo_run_resolved_iff (st : EchoState) (events : List ConnectionEvent) :
    (EchoStep.run st events).resolved = true ↔
      (st.resolved = true ∨ ConnectionEvent.connectionClosed ∈ events) := by
  induction events generalizing st with
  | nil =>
      simp [EchoStep.run]
  | cons e rest ih =>
      have hstep : EchoStep.run st (e :: rest) = EchoStep.run (EchoStep.stepEvent st e) rest := rfl
      rw [hstep, ih]
      cases e with
      | channelOpen c => simp [EchoStep.stepEvent]
      | trackOpen t => simp [EchoStep.stepEvent]
      | connectionClosed => simp [EchoStep.stepEvent]

/-- C6: echo-channels, peer-proxy and dynamic-proxy steps never complete
while the connection remains open; each completes exactly when the
connection-closed event is observed, the peer-proxy one after parking on a
successful negotiation. -/
theorem C6_perpetual_steps_complete_on_close (conn : MockRTCConnection)
    (events : List ConnectionEvent) (step : PeerProxyStep)
    (externalConn : RTCConnection) (answer : RTCSessionDescriptionInit)
    (hok : step.getAnswer externalConn.localDescription = .ok answer) :
    ((EchoStep.run (EchoStep.attach conn) events).resolved = true ↔
      ConnectionEvent.connectionClosed ∈ events) ∧
    ((step.handle externalConn).2 = .parked answer ∧
      (PeerProxyStep.parkedRun events = true ↔
        ConnectionEvent.connectionClosed ∈ events)) ∧
    (DynamicProxyStep.parkedRun events = true ↔
      ConnectionEvent.connectionClosed ∈ events) := by
  refine ⟨?_, ⟨?_, ?_⟩, ?_⟩
  · rw [echo_run_resolved_iff]
    constructor
    · intro h
      rcases h with h1 | h2
      · exact absurd h1 (by simp [EchoStep.attach])
      · exact h2
    · intro h
      exact Or.inr h
  · simp [PeerProxyStep.handle, hok]
  · rw [PeerProxyStep.parkedRun, closedListenerRun_iff]
    simp
  · rw [DynamicProxyStep.parkedRun, closedListenerRun_iff]
    simp

/-- Witness for C6: a successful local answer source parks the peer-proxy
step, and a close event resolves all three parked promises on the sample
connection. -/
theorem C6_perpetual_steps_complete_on_close_witness :
    ((PeerProxyStep.mk (fun o => .ok o) []).getAnswer
        (RTCConnection.mk 7 (RTCSessionDescriptionInit.mk "offer" "sdp")).localDescription
      = .ok (RTCSessionDescriptionInit.mk "offer" "sdp")) ∧
    ((EchoStep.run (EchoStep.attach sampleConnection)
        [ConnectionEvent.connectionClosed]).resolved = true ↔
      ConnectionEvent.connectionClosed ∈ [ConnectionEvent.connectionClosed]) ∧
    ((PeerProxyStep.mk (fun o => .ok o) []).handle
        (RTCConnection.mk 7 (RTCSessionDescriptionInit.mk "offer" "sdp"))).2
      = .parked (RTCSessionDescriptionInit.mk "offer" "sdp") ∧
    (DynamicProxyStep.parkedRun [ConnectionEvent.connectionClosed] = true ↔
      ConnectionEvent.connectionClosed ∈ [ConnectionEvent.connectionClosed]) := by
  have hok : (PeerProxyStep.mk (fun o => .ok o) []).getAnswer
      (RTCConnection.mk 7 (RTCSessionDescriptionInit.mk "offer" "sdp")).localDescription
        = .ok (RTCSessionDescriptionInit.mk "offer" "sdp") := rfl
  have h := C6_perpetual_steps_complete_on_close sampleConnection
    [ConnectionEvent.connectionClosed] (PeerProxyStep.mk (fun o => .ok o) [])
    (RTCConnection.mk 7 (RTCSessionDescriptionInit.mk "offer" "sdp"))
    (RTCSessionDescriptionInit.mk "offer" "sdp") hok
  exact ⟨hok, h.1, h.2.1.1, h.2.2⟩

/-- C7: when the configured answer source of a peer-proxy step throws, the
handle promise rejects with NegotiationFailed, yet the external connection
created before the answer was requested is already recorded in
externalConnections, so dispose closes it and every owned external
connection is closed on disposal. -/
theorem C7_peer_proxy_failure_disposes (step : PeerProxyStep)
    (externalConn : RTCConnection) (msg : String)
    (hthrow : step.getAnswer externalConn.localDescription = .error msg) :
    (step.handle externalConn).2 = .failed (.NegotiationFailed msg) ∧
    externalConn.id ∈ (step.handle externalConn).1.externalConnections ∧
    (∀ i ∈ (step.handle externalConn).1.externalConnections,
      i ∈ (step.handle externalConn).1.dispose) := by
  refine ⟨?_, ?_, ?_⟩
  · simp [PeerProxyStep.handle, hthrow]
  · simp [PeerProxyStep.handle, hthrow]
  · intro i hi
    exact hi

/-- Witness for C7: a throwing answer source against a concrete external
connection. -/
theorem C7_peer_proxy_failure_disposes_witness :
    ((PeerProxyStep.mk (fun _ => .error "negotiation refused") []).getAnswer
        (RTCConnection.mk 7 (RTCSessionDescriptionInit.mk "offer" "sdp")).localDescription
      = .error "negotiation refused") ∧
    ((PeerProxyStep.mk (fun _ => .error "negotiation refused") []).handle
        (RTCConnection.mk 7 (RTCSessionDescriptionInit.mk "offer" "sdp"))).2
      = .failed (.NegotiationFailed "negotiation refused") ∧
    (RTCConnection.mk 7 (RTCSessionDescriptionInit.mk "offer" "sdp")).id
      ∈ ((PeerProxyStep.mk (fun _ => .error "negotiation refused") []).handle
        (RTCConnection.mk 7 (RTCSessionDescriptionInit.mk "offer" "sdp"))).1.dispose := by
  have hthrow : (PeerProxyStep.mk (fun _ => .error "negotiation refused") []).getAnswer
      (RTCConnection.mk 7 (RTCSessionDescriptionInit.mk "offer" "sdp")).localDescription
        = .error "negotiation refused" := rfl
  have h := C7_peer_proxy_failure_disposes
    (PeerProxyStep.mk (fun _ => .error "negotiation refused") [])
    (RTCConnection.mk 7 (RTCSessionDescriptionInit.mk "offer" "sdp"))
    "negotiation refused" hthrow
  exact ⟨hthrow, h.1, h.2.2 _ h.2.1⟩

/-- C2: serializing a peer-proxy step registers the offer-to-answer request
handler on the dispatch channel and emits only the type tag; deserializing
on the other side yields a step whose getAnswer returns, for every offer,
exactly what the original local getAnswer returns, and the handle logic,
which consults only getAnswer, behaves identically on the channel-backed
step. -/
theorem C2_peer_proxy_roundtrip (step : PeerProxyStep)
    (channel : ClientServerChannel) (offer : RTCSessionDescriptionInit)
    (externalConn : RTCConnection) :
    (step.serialize channel).2 = "peer-proxy" ∧
    ((step.serialize channel).1.onRequestHandler).isSome = true ∧
    (PeerProxyStep.deserialize (step.serialize channel).2
        (step.serialize channel).1).getAnswer offer
      = step.getAnswer offer ∧
    PeerProxyStep.handle
        { getAnswer := (PeerProxyStep.deserialize (step.serialize channel).2
            (step.serialize channel).1).getAnswer,
          externalConnections := step.externalConnections } externalConn
      = step.handle externalConn := by
  have hround : ∀ o : RTCSessionDescriptionInit,
      (PeerProxyStep.deserialize (step.serialize channel).2
        (step.serialize channel).1).getAnswer o = step.getAnswer o := by
    intro o
    show ((PeerProxyStep.serialize step channel).1.request { offer := o }).map
        (fun r => r.answer) = step.getAnswer o
    show (((step.getAnswer o).map (fun a => ({ answer := a } : AnswerResponse))).map
        (fun r => r.answer)) = step.getAnswer o
    cases step.getAnswer o with
    | error e => rfl
    | ok a => rfl
  have hfun : (PeerProxyStep.deserialize (step.serialize channel).2
      (step.serialize channel).1).getAnswer = step.getAnswer :=
    funext hround
  refine ⟨rfl, rfl, hround offer, ?_⟩
  rw [hfun]

/-- Witness for C2 is not needed, but the round trip is checked on a
concrete answer source and offer anyway. -/
theorem C2_peer_proxy_roundtrip_check :
    (PeerProxyStep.deserialize
        ((PeerProxyStep.mk (fun o => .ok o) []).serialize
          (ClientServerChannel.mk none)).2
        ((PeerProxyStep.mk (fun o => .ok o) []).serialize
          (ClientServerChannel.mk none)).1).getAnswer
      (RTCSessionDescriptionInit.mk "offer" "v=0")
      = .ok (RTCSessionDescriptionInit.mk "offer" "v=0") :=
  (C2_peer_proxy_roundtrip (PeerProxyStep.mk (fun o => .ok o) [])
    (ClientServerChannel.mk none) (RTCSessionDescriptionInit.mk "offer" "v=0")
    (RTCConnection.mk 0 (RTCSessionDescriptionInit.mk "offer" "v=0"))).2.2.1

/-- Runs of operations never change a dynamic-proxy step. -/
theorem dynamicProxy_runOps_id (ops : List DynOp) (s : DynamicProxyStep) :
    s.runOps ops = s := by
  induction ops generalizing s with
  | nil => rfl
  | cons op rest ih =>
      cases op with
      | handle => exact ih s
      | dispose => exact ih s

/-- C10: a dynamic-proxy step's externalConnections list stays empty from
construction through any sequence of handle and dispose operations, so
dispose closes no connections. -/
theorem C10_dynamic_proxy_owns_nothing (ops : List DynOp) :
    (DynamicProxyStep.new.runOps ops).externalConnections = [] ∧
    (DynamicProxyStep.new.runOps ops).dispose = [] := by
  rw [dynamicProxy_runOps_id]
  exact ⟨rfl, rfl⟩

end MockRTC
